import Mathlib

/-!
Verification of the Filter-and-Aggregate Engine of the infrastructure
projects dashboard (`src/app.py`).

The source is a pandas-based dashboard.  We embed its engine shallowly:

* a dataframe is a `List Record`; categorical cells are `Option String`
  (`none` models a missing value / NaN), the cost cell is `Option ℚ`;
* `filtered_df[filtered_df[col] == v]` keeps exactly the rows whose cell
  equals `some v` (a NaN cell never compares equal), in order;
* `Series.sum()` skips NaN, i.e. missing cost contributes `0`;
* `Series.unique()` keeps NaN as one distinct value, so the distinct
  count over an `Option`-valued column is `List.dedup` on the options;
* `groupby(col).size()`, `value_counts()` and `pd.crosstab` all drop
  rows whose grouping cell is NaN and emit the group keys in ascending
  order; we use `List.filterMap` for the dropping and
  `List.insertionSort` for the ordering;
* `sort_values(ascending=False)` is modelled as a stable sort by the
  value, descending (`List.insertionSort` with the reversed relation);
* python `sorted` raises `TypeError` on a mix of NaN and strings, so
  `get_filter_options` is `Option`-valued: `none` models the raise.
-/

namespace InfraDashboard

/-- Lexicographic order on strings through their character lists.  It agrees
with the standard `String` order (`strLE_iff_le`); we use it in the
executable definitions because it evaluates by structural reduction. -/
def strLE (a b : String) : Prop := a.data ≤ b.data

instance : DecidableRel strLE :=
  fun a b => inferInstanceAs (Decidable (a.data ≤ b.data))

theorem strLE_iff_le (a b : String) : strLE a b ↔ a ≤ b := by
  rw [String.le_iff_toList_le]
  exact Iff.rfl

instance : IsTotal String strLE :=
  ⟨fun a b => by simpa [strLE_iff_le] using le_total a b⟩

instance : IsTrans String strLE :=
  ⟨fun a b c h₁ h₂ => by
    rw [strLE_iff_le] at h₁ h₂ ⊢
    exact le_trans h₁ h₂⟩

/-- One row of the loaded dataframe (`load_data` in `src/app.py`), with the
thirteen columns of the fixed schema.  Missing cells are `none`. -/
structure Record where
  sequenceNumber : Int := 0
  name : String := ""
  totalCost : Option ℚ := none
  sector : Option String := none
  subSector : Option String := none
  authority : Option String := none
  year : Option String := none
  location : Option String := none
  status : Option String := none
  resourceManagement : Option String := none
  logistics : Option String := none
  machineryMobilization : Option String := none
  workForce : Option String := none
deriving DecidableEq, Repr

/-- The four sidebar selections (`selected_location`, `selected_status`,
`selected_sector`, `selected_year` in `main`).  Each is the chosen option
string; `"All"` is the sentinel for "no constraint". -/
structure FilterSet where
  location : String := "All"
  status : String := "All"
  sector : String := "All"
  year : String := "All"
deriving DecidableEq, Repr

/-- Lines 86–95 of `src/app.py`: start from a copy of the table, then apply
the four equality filters in sequence, each one only when its selection is
not `"All"`.  A row with a missing cell never matches an active filter,
because `NaN == v` is false in pandas. -/
def applyFilters (df : List Record) (f : FilterSet) : List Record :=
  let filtered0 := df
  let filtered1 :=
    if f.location ≠ "All" then
      filtered0.filter (fun r => decide (r.location = some f.location))
    else filtered0
  let filtered2 :=
    if f.status ≠ "All" then
      filtered1.filter (fun r => decide (r.status = some f.status))
    else filtered1
  let filtered3 :=
    if f.sector ≠ "All" then
      filtered2.filter (fun r => decide (r.sector = some f.sector))
    else filtered2
  if f.year ≠ "All" then
    filtered3.filter (fun r => decide (r.year = some f.year))
  else filtered3

/-- The specification's description of the filtered view: a record belongs
to it iff it satisfies every active predicate (a predicate is active when
its selection differs from `"All"`, and is equality on its column). -/
def satisfiesActivePredicates (f : FilterSet) (r : Record) : Bool :=
  (decide (f.location = "All") || decide (r.location = some f.location)) &&
  (decide (f.status = "All") || decide (r.status = some f.status)) &&
  (decide (f.sector = "All") || decide (r.sector = some f.sector)) &&
  (decide (f.year = "All") || decide (r.year = some f.year))

/-- Lines 53–55 of `src/app.py`: `['All'] + sorted(df[column].unique().tolist())`.
`unique()` lists the distinct cells of the column of the FULL table; when a
NaN is among them, python's `sorted` raises a `TypeError` on the mixed
list, which we model as `none`.  Otherwise the options are `"All"`
followed by the distinct present values in ascending order. -/
def get_filter_options (df : List Record) (column : Record → Option String) :
    Option (List String) :=
  let uniqueVals := (df.map column).dedup
  if uniqueVals.all (·.isSome) then
    some ("All" :: List.insertionSort strLE (uniqueVals.filterMap id))
  else none

/-- The three scalar metrics of lines 100–106 of `src/app.py`. -/
structure Metrics where
  count : Nat
  totalCostSum : ℚ
  distinctSectorCount : Nat
deriving DecidableEq, Repr

/-- Lines 100–106 of `src/app.py`: `len(filtered_df)`,
`filtered_df['Total Project Cost (In Rs.Crore)'].sum()` (pandas `.sum()`
skips NaN, so a missing cost contributes 0), and
`len(filtered_df['Sector'].unique())` (pandas `.unique()` keeps NaN as one
of the distinct values, hence `dedup` over the `Option String` cells). -/
def computeMetrics (view : List Record) : Metrics :=
  { count := view.length
    totalCostSum := (view.map (fun r => r.totalCost.getD 0)).sum
    distinctSectorCount := (view.map (·.sector)).dedup.length }

/-- The distinct present values of a column in ascending order: the group
keys produced by pandas `groupby`/`crosstab` (missing cells dropped). -/
def sortedKeys (view : List Record) (column : Record → Option String) :
    List String :=
  List.insertionSort strLE (view.filterMap column).dedup

/-- Embeds `filtered_df.groupby(column).size()`: one `(key, groupSize)` pair per
distinct present value of the column, keys in ascending order, rows with a
missing cell dropped (pandas `groupby` default `dropna=True`). -/
def groupSizes (view : List Record) (column : Record → Option String) :
    List (String × Nat) :=
  (sortedKeys view column).map
    (fun k => (k, (view.filter (fun r => decide (column r = some k))).length))

/-- Lines 126–130 of `src/app.py`: group the view by `Location`, count each
group, then `sort_values(ascending=False)` by the count (modelled as a
stable descending sort). -/
def location_data (view : List Record) : List (String × Nat) :=
  List.insertionSort (fun a b : String × Nat => b.2 ≤ a.2)
    (groupSizes view (·.location))

/-- One row of a cross-tabulation after the `Total Projects` column has
been added: the row label, the per-column-category counts, and the row
total. -/
structure CrossRow where
  location : String
  cells : List (String × Nat)
  totalProjects : Nat
deriving DecidableEq, Repr

/-- Lines 181–183 of `src/app.py` (and their copies in the other three
tabs): `pd.crosstab(view[rowColumn], view[colColumn])` — row and column
keys are the distinct present values in ascending order, a row whose cell
is missing in either dimension is dropped, each cell counts the matching
rows — then `Total Projects` is the row sum (`sum(axis=1)`) and the rows
are sorted by it descending (`sort_values(..., ascending=False)`,
modelled as a stable sort). -/
def crosstabCells (view : List Record)
    (rowColumn colColumn : Record → Option String) (rk : String) :
    List (String × Nat) :=
  (sortedKeys view colColumn).map (fun ck =>
    (ck, (view.filter
      (fun r => decide (rowColumn r = some rk ∧ colColumn r = some ck))).length))

/-- The cross-tab before the final sort: one row per distinct present
`rowColumn` value (ascending), with the per-category counts and the
`Total Projects` row sum. -/
def crosstabRows (view : List Record)
    (rowColumn colColumn : Record → Option String) : List CrossRow :=
  (sortedKeys view rowColumn).map (fun rk =>
    { location := rk
      cells := crosstabCells view rowColumn colColumn rk
      totalProjects := ((crosstabCells view rowColumn colColumn rk).map (·.2)).sum })

def crosstab (view : List Record)
    (rowColumn colColumn : Record → Option String) : List CrossRow :=
  List.insertionSort (fun a b : CrossRow => b.totalProjects ≤ a.totalProjects)
    (crosstabRows view rowColumn colColumn)

/-- Everything `main` derives in one pass: the four option lists (computed
from the full table `df`, lines 58–83), the filtered view (lines 86–95),
the metrics (lines 100–106), the location bar-chart data (lines 126–130)
and the four location cross-tabs (lines 181, 200, 219, 238). -/
structure Dashboard where
  locationOptions : Option (List String)
  statusOptions : Option (List String)
  sectorOptions : Option (List String)
  yearOptions : Option (List String)
  filtered : List Record
  metrics : Metrics
  locationData : List (String × Nat)
  resourceLocation : List CrossRow
  logisticsLocation : List CrossRow
  machineryLocation : List CrossRow
  workforceLocation : List CrossRow
deriving DecidableEq, Repr

/-- The body of `main` in `src/app.py`, restricted to the engine logic. -/
def dashboard (df : List Record) (sel : FilterSet) : Dashboard :=
  let filtered := applyFilters df sel
  { locationOptions := get_filter_options df (·.location)
    statusOptions := get_filter_options df (·.status)
    sectorOptions := get_filter_options df (·.sector)
    yearOptions := get_filter_options df (·.year)
    filtered := filtered
    metrics := computeMetrics filtered
    locationData := location_data filtered
    resourceLocation := crosstab filtered (·.location) (·.resourceManagement)
    logisticsLocation := crosstab filtered (·.location) (·.logistics)
    machineryLocation := crosstab filtered (·.location) (·.machineryMobilization)
    workforceLocation := crosstab filtered (·.location) (·.workForce) }

/-- Spec-side formulation (§4.2): the distinct-sector count as the
cardinality of the set of sector values appearing in the view. -/
def spec_distinctSectorCount (view : List Record) : Nat :=
  (view.map (·.sector)).toFinset.card

/-- Spec-side formulation (§4.2 with the §7 missing-value policy): the sum
of `totalCost` over the records, a missing cost contributing `0`. -/
def spec_totalCostSum (view : List Record) : ℚ :=
  view.foldr (fun r acc => r.totalCost.getD 0 + acc) 0

/-- The view with the location predicate removed: the records satisfying
the three remaining predicates (status, sector, year). -/
def filterNoLocation (df : List Record) (f : FilterSet) : List Record :=
  df.filter (fun r =>
    (decide (f.status = "All") || decide (r.status = some f.status)) &&
    (decide (f.sector = "All") || decide (r.sector = some f.sector)) &&
    (decide (f.year = "All") || decide (r.year = some f.year)))

/-! ### Helper lemmas -/

instance : IsTotal (String × Nat) (fun a b => b.2 ≤ a.2) :=
  ⟨fun a b => le_total b.2 a.2⟩

instance : IsTrans (String × Nat) (fun a b => b.2 ≤ a.2) :=
  ⟨fun _ _ _ h₁ h₂ => le_trans h₂ h₁⟩

instance : IsTotal CrossRow (fun a b => b.totalProjects ≤ a.totalProjects) :=
  ⟨fun a b => le_total b.totalProjects a.totalProjects⟩

instance : IsTrans CrossRow (fun a b => b.totalProjects ≤ a.totalProjects) :=
  ⟨fun _ _ _ h₁ h₂ => le_trans h₂ h₁⟩

theorem dedup_toFinset {α : Type} [DecidableEq α] (l : List α) :
    l.dedup.toFinset = l.toFinset :=
  Finset.ext fun x => by simp [List.mem_toFinset, List.mem_dedup]

/-- Summing the multiplicities of `m` over a duplicate-free list of keys
that contains every element of `m` recovers the length of `m`. -/
theorem sum_counts_eq_length {keys m : List String}
    (hnd : keys.Nodup) (hsub : ∀ x ∈ m, x ∈ keys) :
    (keys.map (fun k => m.count k)).sum = m.length := by
  rw [← List.sum_toFinset _ hnd]
  rw [← List.sum_toFinset_count_eq_length (l := m)]
  refine (Finset.sum_subset ?_ ?_).symm
  · intro x hx
    simp only [List.mem_toFinset] at hx ⊢
    exact hsub x hx
  · intro x _ hx
    simp only [List.mem_toFinset] at hx
    exact List.count_eq_zero.mpr hx

/-- The rows of a group matching a key are counted by the multiplicity of
the key in the projected column. -/
theorem length_filter_eq_count (view : List Record)
    (column : Record → Option String) (k : String) :
    (view.filter (fun r => decide (column r = some k))).length =
      (view.filterMap column).count k := by
  induction view with
  | nil => simp
  | cons r t ih =>
    cases h : column r with
    | none => simp [List.filter_cons, List.filterMap_cons, h, ih]
    | some v =>
      by_cases hv : v = k
      · subst hv
        simp [List.filter_cons, List.filterMap_cons, h, ih, List.count_cons]
      · simp [List.filter_cons, List.filterMap_cons, h, ih, List.count_cons,
          hv, Option.some_inj]

/-- The projected column has one entry per row with a present cell. -/
theorem length_filterMap_eq (view : List Record)
    (column : Record → Option String) :
    (view.filterMap column).length =
      (view.filter (fun r => (column r).isSome)).length := by
  induction view with
  | nil => simp
  | cons r t ih =>
    cases h : column r with
    | none => simp [List.filter_cons, List.filterMap_cons, h, ih]
    | some v => simp [List.filter_cons, List.filterMap_cons, h, ih]

/-- The sorted key list of `groupSizes`/`crosstab` is duplicate-free and
holds exactly the present values of the column. -/
theorem sortedKeys_nodup (view : List Record) (column : Record → Option String) :
    (sortedKeys view column).Nodup :=
  ((List.perm_insertionSort strLE _).nodup_iff).mpr (view.filterMap column).nodup_dedup

theorem mem_sortedKeys {view : List Record} {column : Record → Option String}
    {x : String} :
    x ∈ sortedKeys view column ↔ x ∈ view.filterMap column := by
  rw [sortedKeys, (List.perm_insertionSort strLE _).mem_iff, List.mem_dedup]

/-- The code's `if sel != 'All': filtered = filtered[filtered[col] == sel]`
step: skipping the filter when the selection is `"All"` is the same as
filtering by the disjunction with the inactivity test. -/
theorem filter_step (s t : String) (p : Record → Bool) (l : List Record) :
    (if s ≠ t then l.filter p else l) =
      l.filter (fun r => decide (s = t) || p r) := by
  by_cases h : s = t <;> simp [h]

theorem applyFilters_eq_filter (df : List Record) (f : FilterSet) :
    applyFilters df f = df.filter (satisfiesActivePredicates f) := by
  simp only [applyFilters]
  rw [filter_step, filter_step, filter_step, filter_step]
  simp only [List.filter_filter]
  apply List.filter_congr
  intro r _
  simp only [satisfiesActivePredicates]
  cases decide (f.location = "All") <;> cases decide (r.location = some f.location) <;>
    cases decide (f.status = "All") <;> cases decide (r.status = some f.status) <;>
    cases decide (f.sector = "All") <;> cases decide (r.sector = some f.sector) <;>
    cases decide (f.year = "All") <;> cases decide (r.year = some f.year) <;> rfl

/-- The group sizes of a column add up to the number of records whose cell
in that column is present: the records with a missing cell are dropped by
the grouping (pandas `groupby` default `dropna=True`). -/
theorem groupSizes_sum (view : List Record) (column : Record → Option String) :
    ((groupSizes view column).map (·.2)).sum =
      (view.filter (fun r => (column r).isSome)).length := by
  unfold groupSizes
  rw [List.map_map]
  have hmap : ∀ k ∈ sortedKeys view column,
      ((fun p : String × Nat => p.2) ∘ fun k =>
        (k, (view.filter (fun r => decide (column r = some k))).length)) k =
        (view.filterMap column).count k :=
    fun k _ => length_filter_eq_count view column k
  rw [List.map_congr_left hmap,
    sum_counts_eq_length (sortedKeys_nodup view column)
      (fun x hx => mem_sortedKeys.mpr hx),
    length_filterMap_eq]

/-- The sorted bar-chart data of lines 126–130 has the same column sums as
the raw group sizes. -/
theorem location_data_sum (view : List Record) :
    ((location_data view).map (·.2)).sum =
      (view.filter (fun r => r.location.isSome)).length := by
  unfold location_data
  rw [List.Perm.sum_eq
    ((List.perm_insertionSort _ (groupSizes view (·.location))).map (·.2))]
  exact groupSizes_sum view (·.location)

/-- A cross-tab row's total counts the view records whose row cell equals
the row key and whose column cell is present. -/
theorem crosstab_rowTotal (view : List Record)
    (rowColumn colColumn : Record → Option String) (rk : String) :
    ((crosstabCells view rowColumn colColumn rk).map (·.2)).sum =
      (view.filter (fun r =>
        decide (rowColumn r = some rk) && (colColumn r).isSome)).length := by
  unfold crosstabCells
  rw [List.map_map]
  have hcell : ∀ ck ∈ sortedKeys view colColumn,
      ((fun p : String × Nat => p.2) ∘ fun ck =>
        (ck, (view.filter (fun r =>
          decide (rowColumn r = some rk ∧ colColumn r = some ck))).length)) ck =
      ((view.filter (fun r => decide (rowColumn r = some rk))).filterMap
        colColumn).count ck := by
    intro ck _
    show (view.filter (fun r =>
      decide (rowColumn r = some rk ∧ colColumn r = some ck))).length = _
    rw [← length_filter_eq_count, List.filter_filter]
    congr 1
    apply List.filter_congr
    intro r _
    by_cases h1 : rowColumn r = some rk <;> by_cases h2 : colColumn r = some ck <;>
      simp [h1, h2]
  rw [List.map_congr_left hcell,
    sum_counts_eq_length (sortedKeys_nodup view colColumn) ?_,
    length_filterMap_eq, List.filter_filter]
  · congr 1
    apply List.filter_congr
    intro r _
    by_cases h1 : rowColumn r = some rk <;> simp [h1]
  · intro x hx
    rw [mem_sortedKeys]
    rw [List.mem_filterMap] at hx ⊢
    obtain ⟨r, hr, hcol⟩ := hx
    exact ⟨r, (List.filter_sublist view).mem hr, hcol⟩

/-- The `Total Projects` column of a cross-tab adds up to the number of
view records whose cells are present in both dimensions: records missing
either cell are dropped by `pd.crosstab`. -/
theorem crosstab_sum_totals (view : List Record)
    (rowColumn colColumn : Record → Option String) :
    ((crosstab view rowColumn colColumn).map (·.totalProjects)).sum =
      (view.filter (fun r =>
        (rowColumn r).isSome && (colColumn r).isSome)).length := by
  unfold crosstab
  rw [List.Perm.sum_eq
    ((List.perm_insertionSort _ (crosstabRows view rowColumn colColumn)).map
      (·.totalProjects))]
  unfold crosstabRows
  rw [List.map_map]
  have hrow : ∀ rk ∈ sortedKeys view rowColumn,
      ((fun row : CrossRow => row.totalProjects) ∘ fun rk =>
        ({ location := rk
           cells := crosstabCells view rowColumn colColumn rk
           totalProjects :=
             ((crosstabCells view rowColumn colColumn rk).map (·.2)).sum } :
          CrossRow)) rk =
      ((view.filter (fun r => (colColumn r).isSome)).filterMap rowColumn).count rk := by
    intro rk _
    show ((crosstabCells view rowColumn colColumn rk).map (·.2)).sum = _
    rw [crosstab_rowTotal, ← length_filter_eq_count, List.filter_filter]
  rw [List.map_congr_left hrow,
    sum_counts_eq_length (sortedKeys_nodup view rowColumn) ?_,
    length_filterMap_eq, List.filter_filter]
  intro x hx
  rw [mem_sortedKeys]
  rw [List.mem_filterMap] at hx ⊢
  obtain ⟨r, hr, hcol⟩ := hx
  exact ⟨r, (List.filter_sublist view).mem hr, hcol⟩

/-! ### Claims -/

/-- C1: for every record table and filter set, `applyFilters` returns
exactly the order-preserving subsequence of the table consisting of the
records that satisfy every active predicate (a predicate is active when
its selected value is not `"All"` and compares its column by equality).
The equation with `List.filter` gives the exact characterization, and the
`Sublist` conjunct states order preservation; determinism and absence of
mutation hold because `applyFilters` is a pure function on immutable
lists. -/
theorem c1_applyFilters_correct (df : List Record) (f : FilterSet) :
    applyFilters df f = df.filter (satisfiesActivePredicates f) ∧
      (applyFilters df f).Sublist df := by
  refine ⟨applyFilters_eq_filter df f, ?_⟩
  rw [applyFilters_eq_filter]
  exact List.filter_sublist df

/-- C2: when every predicate's selected value is `"All"`,
`applyFilters` returns the whole table unchanged. -/
theorem c2_allAll_identity (df : List Record) :
    applyFilters df
      { location := "All", status := "All", sector := "All", year := "All" } = df := by
  simp [applyFilters]

/-- C3: `computeMetrics` returns the record count of the view, the
arithmetic sum of `totalCost` with missing values contributing `0`
(`spec_totalCostSum`), and the cardinality of the set of distinct sector
values of the view under exact (case-sensitive) equality
(`spec_distinctSectorCount`). -/
theorem c3_computeMetrics_correct (view : List Record) :
    computeMetrics view =
      { count := view.length
        totalCostSum := spec_totalCostSum view
        distinctSectorCount := spec_distinctSectorCount view } := by
  simp only [computeMetrics, spec_totalCostSum, spec_distinctSectorCount,
    List.card_toFinset, Metrics.mk.injEq]
  refine ⟨trivial, ?_, trivial⟩
  rw [List.sum_eq_foldr, List.foldr_map]

/-- A record whose grouping fields are missing, as in a source row whose
`Location` cell is NaN. -/
def missingLocationRecord : Record :=
  { name := "p", location := none, resourceManagement := some "High" }

/-- Concrete records with all grouped cells present. -/
def rowRecord1 : Record :=
  { name := "a", location := some "A", resourceManagement := some "X"
    sector := some "Roads" }

def rowRecord2 : Record :=
  { name := "b", location := some "B", resourceManagement := some "X" }

/-- C4 counterexample: a one-record view whose `Location` is missing.
The grouped count (`location_data`, lines 126–130) and the cross-tab
(lines 181–183) are empty — pandas `groupby`/`crosstab` drop the record
instead of grouping it under a "missing" category — so the sum of the
output's counts is `0`, not the view's record count `1`. -/
theorem c4_counterexample :
    location_data [missingLocationRecord] = [] ∧
    ((location_data [missingLocationRecord]).map (·.2)).sum = 0 ∧
    crosstab [missingLocationRecord] (·.location) (·.resourceManagement) = [] ∧
    [missingLocationRecord].length = 1 := by
  decide

/-- C4 amended: a record whose grouping cell is missing is silently
dropped from the grouped-count and cross-tabulation outputs (pandas
`dropna=True` defaults), so the sum of the output's counts equals the
number of view records whose grouping cell is present (for the cross-tab:
present in both dimensions), not the record count of the view. -/
theorem c4_amended (view : List Record)
    (column rowColumn colColumn : Record → Option String) :
    ((groupSizes view column).map (·.2)).sum =
      (view.filter (fun r => (column r).isSome)).length ∧
    ((location_data view).map (·.2)).sum =
      (view.filter (fun r => r.location.isSome)).length ∧
    ((crosstab view rowColumn colColumn).map (·.totalProjects)).sum =
      (view.filter (fun r =>
        (rowColumn r).isSome && (colColumn r).isSome)).length :=
  ⟨groupSizes_sum view column, location_data_sum view,
    crosstab_sum_totals view rowColumn colColumn⟩

/-- C5: when both categorical dimensions have no missing cells, every
cross-tab row's `Total Projects` equals the sum of that row's per-category
counts, and the `Total Projects` entries add up to the record count of the
view. -/
theorem c5_crosstab_totals (view : List Record)
    (rowColumn colColumn : Record → Option String)
    (h : ∀ r ∈ view, (rowColumn r).isSome ∧ (colColumn r).isSome) :
    (∀ row ∈ crosstab view rowColumn colColumn,
      row.totalProjects = (row.cells.map (·.2)).sum) ∧
    ((crosstab view rowColumn colColumn).map (·.totalProjects)).sum =
      view.length := by
  constructor
  · intro row hrow
    rw [crosstab, (List.perm_insertionSort _ _).mem_iff, crosstabRows] at hrow
    obtain ⟨rk, _, rfl⟩ := List.mem_map.mp hrow
    rfl
  · rw [crosstab_sum_totals]
    have hall : view.filter
        (fun r => (rowColumn r).isSome && (colColumn r).isSome) = view :=
      List.filter_eq_self.mpr (fun r hr => by
        obtain ⟨h1, h2⟩ := h r hr
        simp [h1, h2])
    rw [hall]

/-- Witness for C5 at a concrete two-record view. -/
theorem c5_crosstab_totals_witness :
    (∀ row ∈ crosstab [rowRecord1, rowRecord2] (·.location) (·.resourceManagement),
      row.totalProjects = (row.cells.map (·.2)).sum) ∧
    ((crosstab [rowRecord1, rowRecord2] (·.location)
      (·.resourceManagement)).map (·.totalProjects)).sum =
      [rowRecord1, rowRecord2].length :=
  c5_crosstab_totals [rowRecord1, rowRecord2] (·.location) (·.resourceManagement)
    (by decide)

/-- C6 counterexample: in the view `[rowRecord2, rowRecord1]` the
location values first appear in the order `B`, `A` and the two cross-tab
rows tie with `Total Projects = 1`, yet the produced rows come out as
`A`, `B`: the tie order is the ascending order of the grouped keys (the
`pd.crosstab` index), not the first-appearance order the claim states. -/
theorem c6_counterexample :
    ((crosstab [rowRecord2, rowRecord1] (·.location) (·.resourceManagement)).map
      (·.location) = ["A", "B"]) ∧
    ((crosstab [rowRecord2, rowRecord1] (·.location) (·.resourceManagement)).map
      (·.totalProjects) = [1, 1]) ∧
    [rowRecord2, rowRecord1].filterMap (·.location) = ["B", "A"] := by
  decide

/-- C6 amended: the cross-tab rows are ordered by `Total Projects`
non-increasing; the order of rows with equal totals is not the
first-appearance order of their location values (the rows enter the final
sort in ascending order of their location keys, as the counterexample
shows). -/
theorem c6_amended (view : List Record)
    (rowColumn colColumn : Record → Option String) :
    (crosstab view rowColumn colColumn).Sorted
      (fun a b => b.totalProjects ≤ a.totalProjects) :=
  List.sorted_insertionSort _ _

/-- C7: a filter set matching zero records yields zero metrics, an
empty grouped sequence and cross-tabs with zero rows, with no failure:
every derived computation is total and returns its degenerate value. -/
theorem c7_empty_view (df : List Record) (f : FilterSet)
    (h : applyFilters df f = []) :
    computeMetrics (applyFilters df f) =
      { count := 0, totalCostSum := 0, distinctSectorCount := 0 } ∧
    location_data (applyFilters df f) = [] ∧
    (∀ rowColumn colColumn,
      crosstab (applyFilters df f) rowColumn colColumn = []) := by
  rw [h]
  exact ⟨rfl, rfl, fun rowColumn colColumn => rfl⟩

/-- Witness for C7: a selection matching no record of a one-record table. -/
theorem c7_empty_view_witness :
    computeMetrics (applyFilters [rowRecord1]
      { location := "Z", status := "All", sector := "All", year := "All" }) =
      { count := 0, totalCostSum := 0, distinctSectorCount := 0 } ∧
    location_data (applyFilters [rowRecord1]
      { location := "Z", status := "All", sector := "All", year := "All" }) = [] ∧
    (∀ rowColumn colColumn,
      crosstab (applyFilters [rowRecord1]
        { location := "Z", status := "All", sector := "All", year := "All" })
        rowColumn colColumn = []) :=
  c7_empty_view [rowRecord1]
    { location := "Z", status := "All", sector := "All", year := "All" }
    (by decide)

/-- When `get_filter_options` succeeds, the option list is `"All"`
followed by the distinct present values of the column sorted ascending. -/
theorem get_filter_options_spec {df : List Record}
    {column : Record → Option String} {opts : List String}
    (h : get_filter_options df column = some opts) :
    opts = "All" ::
      List.insertionSort strLE ((df.map column).dedup.filterMap id) := by
  simp only [get_filter_options] at h
  split at h
  · exact (Option.some_inj.mp h).symm
  · exact absurd h (by simp)

theorem options_tail_nodup (df : List Record) (column : Record → Option String) :
    (List.insertionSort strLE ((df.map column).dedup.filterMap id)).Nodup := by
  refine ((List.perm_insertionSort strLE _).nodup_iff).mpr ?_
  refine List.Nodup.filterMap ?_ (df.map column).nodup_dedup
  intro a a' b hb hb'
  cases a <;> cases a' <;> simp_all

theorem mem_options_tail {df : List Record} {column : Record → Option String}
    {v : String} :
    v ∈ List.insertionSort strLE ((df.map column).dedup.filterMap id) ↔
      some v ∈ df.map column := by
  rw [(List.perm_insertionSort strLE _).mem_iff, List.mem_filterMap]
  constructor
  · rintro ⟨a, ha, rfl⟩
    exact List.mem_dedup.mp ha
  · intro hv
    exact ⟨some v, List.mem_dedup.mpr hv, rfl⟩

/-- C8: each filter's option list is a function of the full table only
— the dashboard computes identical option lists under any two selections —
and when it is defined it consists of the synthetic `"All"` first, followed
by the distinct values of the column in the full table, sorted ascending
and without duplicates. -/
theorem c8_filter_options (df : List Record) (column : Record → Option String)
    (sel1 sel2 : FilterSet) (opts : List String)
    (h : get_filter_options df column = some opts) :
    ((dashboard df sel1).locationOptions = (dashboard df sel2).locationOptions ∧
     (dashboard df sel1).statusOptions = (dashboard df sel2).statusOptions ∧
     (dashboard df sel1).sectorOptions = (dashboard df sel2).sectorOptions ∧
     (dashboard df sel1).yearOptions = (dashboard df sel2).yearOptions) ∧
    opts.head? = some "All" ∧
    opts.tail.Sorted (· ≤ ·) ∧
    opts.tail.Nodup ∧
    (∀ v, v ∈ opts.tail ↔ some v ∈ df.map column) := by
  obtain rfl := get_filter_options_spec h
  refine ⟨⟨rfl, rfl, rfl, rfl⟩, rfl, ?_, options_tail_nodup df column,
    fun v => mem_options_tail⟩
  exact (List.sorted_insertionSort strLE _).imp
    (fun hab => (strLE_iff_le _ _).mp hab)

/-- Witness for C8 at a two-record table and two different selections. -/
theorem c8_filter_options_witness :
    ((dashboard [rowRecord1, rowRecord2] { location := "All" }).locationOptions =
      (dashboard [rowRecord1, rowRecord2] { location := "B" }).locationOptions ∧
     (dashboard [rowRecord1, rowRecord2] { location := "All" }).statusOptions =
      (dashboard [rowRecord1, rowRecord2] { location := "B" }).statusOptions ∧
     (dashboard [rowRecord1, rowRecord2] { location := "All" }).sectorOptions =
      (dashboard [rowRecord1, rowRecord2] { location := "B" }).sectorOptions ∧
     (dashboard [rowRecord1, rowRecord2] { location := "All" }).yearOptions =
      (dashboard [rowRecord1, rowRecord2] { location := "B" }).yearOptions) ∧
    (["All", "A", "B"] : List String).head? = some "All" ∧
    (["All", "A", "B"] : List String).tail.Sorted (· ≤ ·) ∧
    (["All", "A", "B"] : List String).tail.Nodup ∧
    (∀ v, v ∈ (["All", "A", "B"] : List String).tail ↔
      some v ∈ [rowRecord1, rowRecord2].map (·.location)) :=
  c8_filter_options [rowRecord1, rowRecord2] (·.location)
    { location := "All" } { location := "B" } ["All", "A", "B"] (by decide)

/-- A record whose `Location` cell holds the literal string `"All"`. -/
def literalAllRecord : Record :=
  { name := "l", location := some "All", resourceManagement := some "Low" }

/-- The filter set that selects a location and leaves every other filter
inactive. -/
def onlyLocation (s : String) : FilterSet :=
  { location := s, status := "All", sector := "All", year := "All" }

/-- C9: when some record's `Location` cell is the literal string
`"All"`, the sentinel still wins: a `"All"` selection removes the location
constraint entirely (the view equals the one filtered by the remaining
predicates only); no location selection can produce a proper restriction
equal to exactly the records whose location is the string `"All"`; and the
string `"All"` occurs twice in the location option list. -/
theorem c9_literal_all (df : List Record) (s : String) (f : FilterSet)
    (opts : List String)
    (hall : ∃ r ∈ df, r.location = some "All")
    (hopts : get_filter_options df (·.location) = some opts)
    (hf : f.location = "All") :
    applyFilters df f = filterNoLocation df f ∧
    (applyFilters df (onlyLocation s) ≠ df →
      applyFilters df (onlyLocation s) ≠
        df.filter (fun r => decide (r.location = some "All"))) ∧
    opts.count "All" = 2 := by
  refine ⟨?_, ?_, ?_⟩
  · rw [applyFilters_eq_filter]
    unfold filterNoLocation
    apply List.filter_congr
    intro r _
    simp [satisfiesActivePredicates, hf, Bool.and_assoc]
  · intro hne heq
    by_cases hs : s = "All"
    · subst hs
      exact hne (by simp [applyFilters, onlyLocation])
    · obtain ⟨r₀, hr₀, hloc₀⟩ := hall
      have hmem : r₀ ∈ df.filter (fun r => decide (r.location = some "All")) :=
        List.mem_filter.mpr ⟨hr₀, by simp [hloc₀]⟩
      rw [← heq, applyFilters_eq_filter] at hmem
      have hsat := (List.mem_filter.mp hmem).2
      simp only [satisfiesActivePredicates, onlyLocation, hloc₀] at hsat
      simp only [Bool.and_eq_true, Bool.or_eq_true, decide_eq_true_eq] at hsat
      rcases hsat.1.1 with h | h
      · exact hs h
      · exact hs (Option.some_inj.mp h.symm)
  · obtain rfl := get_filter_options_spec hopts
    rw [List.count_cons_self]
    have hmem : "All" ∈ List.insertionSort strLE
        ((df.map (·.location)).dedup.filterMap id) := by
      rw [mem_options_tail]
      obtain ⟨r₀, hr₀, hloc₀⟩ := hall
      exact List.mem_map.mpr ⟨r₀, hr₀, hloc₀⟩
    rw [List.count_eq_one_of_mem (options_tail_nodup df (·.location)) hmem]

/-- Witness for C9: a table holding a record whose location is the literal
string `"All"` and a record located at `"B"`. -/
theorem c9_literal_all_witness :
    applyFilters [literalAllRecord, rowRecord2]
      { location := "All", status := "All", sector := "All", year := "All" } =
      filterNoLocation [literalAllRecord, rowRecord2]
        { location := "All", status := "All", sector := "All", year := "All" } ∧
    (applyFilters [literalAllRecord, rowRecord2] (onlyLocation "B") ≠
        [literalAllRecord, rowRecord2] →
      applyFilters [literalAllRecord, rowRecord2] (onlyLocation "B") ≠
        ([literalAllRecord, rowRecord2]).filter
          (fun r => decide (r.location = some "All"))) ∧
    (["All", "All", "B"] : List String).count "All" = 2 :=
  c9_literal_all [literalAllRecord, rowRecord2] "B"
    { location := "All", status := "All", sector := "All", year := "All" }
    ["All", "All", "B"] (by decide) (by decide) rfl

/-- A record whose `Sector` cell is missing. -/
def missingSectorRecord : Record :=
  { name := "m", location := some "C", sector := none }

/-- C10: a view containing a missing sector value has
`distinctSectorCount` equal to the number of distinct present sector
values plus one — `Series.unique()` keeps NaN as a distinct value — while
the grouped counts over the sector column drop the missing category, so
the metric strictly exceeds the number of grouped categories. -/
theorem c10_missing_sector_gap (view : List Record)
    (h : ∃ r ∈ view, r.sector = none) :
    (computeMetrics view).distinctSectorCount =
      (view.filterMap (·.sector)).dedup.length + 1 ∧
    (groupSizes view (·.sector)).length =
      (view.filterMap (·.sector)).dedup.length ∧
    (groupSizes view (·.sector)).length <
      (computeMetrics view).distinctSectorCount := by
  have h2 : (groupSizes view (·.sector)).length =
      (view.filterMap (·.sector)).dedup.length := by
    unfold groupSizes sortedKeys
    rw [List.length_map, (List.perm_insertionSort strLE _).length_eq]
  have hnone : none ∈ view.map (·.sector) := by
    obtain ⟨r, hr, hsec⟩ := h
    exact List.mem_map.mpr ⟨r, hr, hsec⟩
  have h1 : (computeMetrics view).distinctSectorCount =
      (view.filterMap (·.sector)).dedup.length + 1 := by
    show (view.map (·.sector)).dedup.length = _
    rw [← List.card_toFinset, ← List.card_toFinset]
    have hset : (view.map (·.sector)).toFinset =
        insert none ((view.filterMap (·.sector)).toFinset.image some) := by
      apply Finset.ext
      intro x
      cases x with
      | none => simp [List.mem_toFinset, hnone]
      | some v =>
        simp only [List.mem_toFinset, Finset.mem_insert, Finset.mem_image,
          List.mem_toFinset, List.mem_filterMap]
        constructor
        · intro hv
          obtain ⟨r, hr, hsec⟩ := List.mem_map.mp hv
          exact Or.inr ⟨v, ⟨r, hr, hsec⟩, rfl⟩
        · rintro (hfalse | ⟨w, ⟨r, hr, hsec⟩, hw⟩)
          · exact absurd hfalse (by simp)
          · obtain rfl := Option.some_inj.mp hw
            exact List.mem_map.mpr ⟨r, hr, hsec⟩
    rw [hset, Finset.card_insert_of_not_mem (by simp),
      Finset.card_image_of_injective _ (Option.some_injective String)]
  exact ⟨h1, h2, by rw [h1, h2]; omega⟩

/-- Witness for C10 at a view with one missing and one present sector. -/
theorem c10_missing_sector_gap_witness :
    (computeMetrics [missingSectorRecord, rowRecord1]).distinctSectorCount =
      ([missingSectorRecord, rowRecord1].filterMap (·.sector)).dedup.length + 1 ∧
    (groupSizes [missingSectorRecord, rowRecord1] (·.sector)).length =
      ([missingSectorRecord, rowRecord1].filterMap (·.sector)).dedup.length ∧
    (groupSizes [missingSectorRecord, rowRecord1] (·.sector)).length <
      (computeMetrics [missingSectorRecord, rowRecord1]).distinctSectorCount :=
  c10_missing_sector_gap [missingSectorRecord, rowRecord1] (by decide)

end InfraDashboard
